import Mathlib

/-!
Shallow embedding of `src/zenml/steps/base_step.py`:

* `BaseStepMeta.__new__`  — signature classification at class-definition time,
  embedded as `baseStepMetaNew` (built from `stripSelf`, `parseArgs` and
  `parseReturn`);
* `BaseStep.__init__`     — configuration binding at construction time,
  embedded as `baseStepInit` (built from `initLoop`);
* `BaseStep.__call__`     — artifact binding and component generation at call
  time, embedded as `baseStepCall`;
* `BaseStep.with_materializers` — embedded as `withMaterializers`.

Modelling conventions: a Python class is a `PyType` (its name together with
the outcome of `issubclass(t, BaseStepConfig)`); the external materializer
registry `default_materializer_factory.is_registered` is a boolean predicate
`reg : PyType → Bool`; Python dicts are association lists in insertion order;
raised exceptions are the constructors of `StepError`, each recording the data
interpolated into the corresponding Python error message.  The external
component factory (`generate_component` / the component constructor) is an
opaque function argument producing a `Component` exposing named output
handles, as the surrounding framework guarantees.
-/

/-- A Python class as far as the step machinery inspects it: its name and
whether `issubclass(t, BaseStepConfig)` holds. -/
structure PyType where
  name : String
  isStepConfigSubclass : Bool
  deriving DecidableEq, Repr

/-- The value stored for every input/output spec entry: the generic artifact
base class `BaseArtifact`. -/
inductive ArtifactType where
  | baseArtifact
  deriving DecidableEq, Repr

/-- The return annotation of the process function: either a plain type or an
`Output(...)` declaration carrying ordered name/type pairs
(`isinstance(return_spec, Output)` distinguishes the two). -/
inductive ReturnAnn where
  | single (t : PyType)
  | output (items : List (String × PyType))
  deriving DecidableEq, Repr

/-- What `inspect.getfullargspec` exposes of the process function: the
positional argument names, the annotations dict, and the `return`
annotation (`annotations.get("return", None)`). -/
structure ProcessSignature where
  args : List String
  annotations : List (String × PyType)
  returnAnn : Option ReturnAnn
  deriving DecidableEq, Repr

/-- Exceptions raised by the embedded code.  The `StepInterfaceError` raise
sites are split into constructors carrying the data interpolated into their
messages.  `typeError` models a Python `TypeError` (raised by
`issubclass(None, BaseStepConfig)` for an unannotated parameter, by
`json.dumps` on an unsupported value, and by a call whose `**`-merged keyword
dicts share a key).  `configUnbound` models the `UnboundLocalError` from
reading the local `config` before any assignment, `assertNoConfig` the
`AssertionError` of the defensive check, `unknownArtifact`/`missingArtifact`
the two `ValueError`s of `__call__`. -/
inductive StepError where
  | multipleConfigs
  | unclassifiableParam (arg : String) (t : PyType)
  | unregisteredOutput (name : String) (t : PyType)
  | unregisteredReturn (t : PyType)
  | argsNotAllowed
  | cannotSerialize
  | typeError
  | configUnbound
  | assertNoConfig
  | unknownArtifact (name : String) (declared : List String)
  | missingArtifact (name : String)
  deriving DecidableEq, Repr

/-- Keys of an association list (a Python dict in insertion order). -/
def keysOf {α : Type} (d : List (String × α)) : List String :=
  d.map Prod.fst

/-- `annotations.get(arg, None)`. -/
def lookupAnn : List (String × PyType) → String → Option PyType
  | [], _ => none
  | (k, t) :: rest, a => if k = a then some t else lookupAnn rest a

/-- `d.update({k: v})` on a Python dict: replace in place when the key is
present, append otherwise. -/
def dictUpdate {α : Type} (d : List (String × α)) (k : String) (v : α) :
    List (String × α) :=
  if k ∈ keysOf d then d.map (fun p => if p.1 = k then (k, v) else p)
  else d ++ [(k, v)]

/-- The class-level state set up by `BaseStepMeta.__new__`:
`cls.INPUT_SPEC`, `cls.OUTPUT_SPEC` and `cls.CONFIG`. -/
structure ClassSpec where
  inputSpec : List (String × ArtifactType)
  outputSpec : List (String × ArtifactType)
  config : Option PyType
  deriving DecidableEq, Repr

/-- Initial class state: `INPUT_SPEC = dict()`, `OUTPUT_SPEC = dict()`,
`CONFIG = None`. -/
def emptyClassSpec : ClassSpec :=
  { inputSpec := [], outputSpec := [], config := none }

/-- `if process_args and process_args[0] == "self": process_args.pop(0)`. -/
def stripSelf : List String → List String
  | [] => []
  | a :: rest => if a = "self" then rest else a :: rest

/-- One iteration of the parameter-classification loop of
`BaseStepMeta.__new__`.  `issubclass(arg_type, BaseStepConfig)` raises
`TypeError` when `arg_type` is `None` (parameter without annotation); a second
configuration parameter raises the multiple-configs `StepInterfaceError`;
a registered type is added to the input spec mapped to `BaseArtifact`;
anything else raises the classification `StepInterfaceError` naming the
parameter and its type. -/
def parseArg (reg : PyType → Bool) (st : ClassSpec) (arg : String)
    (ann : Option PyType) : Except StepError ClassSpec :=
  match ann with
  | none => .error .typeError
  | some t =>
    if t.isStepConfigSubclass then
      match st.config with
      | some _ => .error .multipleConfigs
      | none => .ok { st with config := some t }
    else if reg t then
      .ok { st with inputSpec := dictUpdate st.inputSpec arg ArtifactType.baseArtifact }
    else
      .error (.unclassifiableParam arg t)

/-- The parameter-classification loop (`for arg in process_args`). -/
def parseArgs (reg : PyType → Bool) (anns : List (String × PyType)) :
    List String → ClassSpec → Except StepError ClassSpec
  | [], st => .ok st
  | a :: rest, st =>
    match parseArg reg st a (lookupAnn anns a) with
    | .error e => .error e
    | .ok st' => parseArgs reg anns rest st'

/-- Modelled from the spec: the fixed single-output name
(`SINGLE_RETURN_OUT_NAME` imported from `zenml.steps.utils`, a module outside
the excerpt).  The spec only requires it to be one fixed name. -/
def SINGLE_RETURN_OUT_NAME : String := "output"

/-- The loop over the items of an `Output(...)` return declaration. -/
def parseOutputItems (reg : PyType → Bool) :
    List (String × PyType) → ClassSpec → Except StepError ClassSpec
  | [], st => .ok st
  | (n, t) :: rest, st =>
    if reg t then
      parseOutputItems reg rest
        { st with outputSpec := dictUpdate st.outputSpec n ArtifactType.baseArtifact }
    else
      .error (.unregisteredOutput n t)

/-- Return-annotation handling of `BaseStepMeta.__new__`: nothing when the
annotation is absent, the `Output` item loop for a multi-output declaration,
and the single-output case otherwise. -/
def parseReturn (reg : PyType → Bool) (st : ClassSpec) :
    Option ReturnAnn → Except StepError ClassSpec
  | none => .ok st
  | some (.output items) => parseOutputItems reg items st
  | some (.single t) =>
    if reg t then
      .ok { st with outputSpec := dictUpdate st.outputSpec SINGLE_RETURN_OUT_NAME ArtifactType.baseArtifact }
    else
      .error (.unregisteredReturn t)

/-- `BaseStepMeta.__new__`: strip the receiver, classify the parameters, then
infer the outputs from the return annotation. -/
def baseStepMetaNew (reg : PyType → Bool) (sig : ProcessSignature) :
    Except StepError ClassSpec :=
  match parseArgs reg sig.annotations (stripSelf sig.args) emptyClassSpec with
  | .error e => .error e
  | .ok st => parseReturn reg st sig.returnAnn

/-- A field value of a pydantic config model, as seen by `json.dumps`: either
it serializes to a string or `json.dumps` raises `TypeError` on it. -/
inductive FieldValue where
  | jsonOk (s : String)
  | jsonBad (tag : String)
  deriving DecidableEq, Repr

/-- A `BaseStepConfig` value: the field mapping its `.dict()` would return,
and whether `.dict()` itself raises `RuntimeError` (the only exception class
the source catches). -/
structure ConfigValue where
  fields : List (String × FieldValue)
  dictRaises : Bool
  deriving DecidableEq, Repr

/-- A Python value supplied as a keyword argument to `BaseStep.__init__`:
either an instance of `BaseStepConfig` or anything else. -/
inductive PyValue where
  | configValue (c : ConfigValue)
  | plain (tag : String)
  deriving DecidableEq, Repr

/-- `json.dumps(v)`: raises `TypeError` on values it cannot encode. -/
def jsonDumps : FieldValue → Except StepError String
  | .jsonOk s => .ok s
  | .jsonBad _ => .error .typeError

/-- The dict comprehension `{k: json.dumps(v) for k, v in model_dict.items()}`:
the whole dict is built before being assigned, so a failing field aborts
without any assignment taking place. -/
def serializeFields : List (String × FieldValue) →
    Except StepError (List (String × String))
  | [] => .ok []
  | (k, v) :: rest =>
    match jsonDumps v with
    | .error e => .error e
    | .ok s =>
      match serializeFields rest with
      | .error e => .error e
      | .ok tail => .ok ((k, s) :: tail)

/-- One iteration of the config-binding loop of `BaseStep.__init__`
(`for v in kwargs.values()`).  The body rebinds the local `config` only when
`v` is a `BaseStepConfig`; the `try`/serialize/`assert` block runs on every
iteration.  Reading `config` before any assignment is an `UnboundLocalError`;
a `RuntimeError` from `config.dict()` is caught and re-raised as the
serialization `StepInterfaceError`; a `TypeError` from `json.dumps`
propagates uncaught and leaves `PARAM_SPEC` unassigned; an empty serialized
dict trips the defensive `assert`.  The error side carries the value of
`self.PARAM_SPEC` at the moment the exception is raised. -/
def initLoopStep (cfg? : Option ConfigValue) (ps : List (String × String))
    (v : PyValue) :
    Except (StepError × List (String × String))
      (Option ConfigValue × List (String × String)) :=
  let cfgNow : Option ConfigValue :=
    match v with
    | .configValue c => some c
    | .plain _ => cfg?
  match cfgNow with
  | none => .error (.configUnbound, ps)
  | some c =>
    if c.dictRaises then
      .error (.cannotSerialize, ps)
    else
      match serializeFields c.fields with
      | .error e => .error (e, ps)
      | .ok ps' =>
        match ps' with
        | [] => .error (.assertNoConfig, ps')
        | _ => .ok (some c, ps')

/-- The config-binding loop of `BaseStep.__init__` over `kwargs.values()`. -/
def initLoop (cfg? : Option ConfigValue) (ps : List (String × String)) :
    List PyValue →
    Except (StepError × List (String × String))
      (Option ConfigValue × List (String × String))
  | [] => .ok (cfg?, ps)
  | v :: rest =>
    match initLoopStep cfg? ps v with
    | .error e => .error e
    | .ok (c, ps') => initLoop c ps' rest

/-- The external component object returned by the component constructor: it
exposes named output handles (`component.outputs.<name>`); handles are
abstract and modelled as strings. -/
structure Component where
  outputs : String → String

/-- The instance attributes of a `BaseStep` object that the embedded methods
read or write: `self.materializers`, `self.PARAM_SPEC` and
`self.__component`.  (`self.__component_class`, the opaque product of the
external `generate_component`, is passed to `baseStepCall` directly.) -/
structure StepInstance where
  materializers : Option (List (String × String))
  paramSpec : List (String × String)
  component : Option Component

/-- `BaseStep.__init__`: attributes are initialised, positional arguments are
rejected, and when `cls.CONFIG` is set the config-binding loop runs over the
keyword values.  On an exception the error side carries the instance
attributes as they stood at the raise. -/
def baseStepInit (cls : ClassSpec) (args : List PyValue)
    (kwargs : List (String × PyValue)) :
    Except (StepError × StepInstance) StepInstance :=
  match args with
  | _ :: _ => .error (.argsNotAllowed, ⟨none, [], none⟩)
  | [] =>
    if cls.config.isSome then
      match initLoop none [] (kwargs.map Prod.snd) with
      | .error (e, ps) => .error (e, ⟨none, ps, none⟩)
      | .ok (_, ps) => .ok ⟨none, ps, none⟩
    else
      .ok ⟨none, [], none⟩

/-- A keyword argument forwarded to the component constructor: an artifact
binding from the call site or a serialized parameter from `PARAM_SPEC`. -/
inductive CallArg where
  | artifact (v : String)
  | param (v : String)
  deriving DecidableEq, Repr

/-- What `BaseStep.__call__` returns: the single handle itself when exactly
one output is declared, the list of handles otherwise. -/
inductive CallResult where
  | single (h : String)
  | many (hs : List String)
  deriving DecidableEq, Repr

/-- The first element of `l` that is not a member of `ks` — the shape of both
validation loops of `BaseStep.__call__`. -/
def firstNotIn (ks : List String) : List String → Option String
  | [] => none
  | a :: rest => if a ∈ ks then firstNotIn ks rest else some a

/-- Does some key of `ps` occur in `ks`?  A Python call whose `**`-merged
keyword dicts share a key raises `TypeError` before the callee runs. -/
def anyKeyIn (ps : List (String × String)) (ks : List String) : Bool :=
  match ps with
  | [] => false
  | q :: rest => if q.1 ∈ ks then true else anyKeyIn rest ks

/-- The keyword arguments the component constructor receives:
`**artifacts, **self.PARAM_SPEC`, artifact bindings first. -/
def mergedCallKwargs (artifacts : List (String × String))
    (paramSpec : List (String × String)) : List (String × CallArg) :=
  artifacts.map (fun p => (p.1, CallArg.artifact p.2)) ++
    paramSpec.map (fun q => (q.1, CallArg.param q.2))

/-- `BaseStep.__call__`: reject the first supplied artifact name missing from
`INPUT_SPEC`, then the first declared name not supplied; then build the
component from `**artifacts, **self.PARAM_SPEC` (a shared key between the two
dicts is a `TypeError` at the call) and resolve the output handles in
`OUTPUT_SPEC` order, unwrapping a single handle. -/
def baseStepCall (cls : ClassSpec) (inst : StepInstance)
    (componentClass : List (String × CallArg) → Component)
    (artifacts : List (String × String)) :
    Except StepError (StepInstance × CallResult) :=
  match firstNotIn (keysOf cls.inputSpec) (keysOf artifacts) with
  | some a => .error (.unknownArtifact a (keysOf cls.inputSpec))
  | none =>
    match firstNotIn (keysOf artifacts) (keysOf cls.inputSpec) with
    | some a => .error (.missingArtifact a)
    | none =>
      match anyKeyIn inst.paramSpec (keysOf artifacts) with
      | true => .error .typeError
      | false =>
        let comp := componentClass (mergedCallKwargs artifacts inst.paramSpec)
        let handles := cls.outputSpec.map (fun p => comp.outputs p.1)
        .ok ({ inst with component := some comp },
          match handles with
          | [h] => CallResult.single h
          | hs => CallResult.many hs)

/-- `BaseStep.with_materializers`: store the injected mapping on the instance
and return the instance. -/
def withMaterializers (inst : StepInstance)
    (mats : List (String × String)) : StepInstance :=
  { inst with materializers := some mats }

/-- A step class together with one of its instances.  All writes in the
source methods target `self`; the class-level specs are only read, which the
wrappers below make explicit by carrying `cls` through every operation. -/
structure StepState where
  cls : ClassSpec
  inst : StepInstance

/-- `BaseStep.__init__` acting on the combined class/instance state. -/
def stateInit (cls : ClassSpec) (args : List PyValue)
    (kwargs : List (String × PyValue)) :
    Except (StepError × StepState) StepState :=
  match baseStepInit cls args kwargs with
  | .error (e, i) => .error (e, ⟨cls, i⟩)
  | .ok i => .ok ⟨cls, i⟩

/-- `BaseStep.__call__` acting on the combined class/instance state. -/
def stateCall (s : StepState)
    (componentClass : List (String × CallArg) → Component)
    (artifacts : List (String × String)) :
    Except StepError (StepState × CallResult) :=
  match baseStepCall s.cls s.inst componentClass artifacts with
  | .error e => .error e
  | .ok (i, r) => .ok (⟨s.cls, i⟩, r)

/-- `BaseStep.with_materializers` acting on the combined state. -/
def stateWithMaterializers (s : StepState)
    (mats : List (String × String)) : StepState :=
  ⟨s.cls, withMaterializers s.inst mats⟩

/-- Does the annotation of `a` classify it (a `BaseStepConfig` subclass, or a
type with a registered materializer)?  Predicate used in theorem
hypotheses. -/
def classifiesOk (reg : PyType → Bool) (anns : List (String × PyType))
    (a : String) : Bool :=
  match lookupAnn anns a with
  | some t => t.isStepConfigSubclass || reg t
  | none => false

/-- Is `a` annotated with a `BaseStepConfig` subclass?  Predicate used in
theorem hypotheses. -/
def isCfgArg (anns : List (String × PyType)) (a : String) : Bool :=
  match lookupAnn anns a with
  | some t => t.isStepConfigSubclass
  | none => false

/-- Is the return annotation absent or entirely materializer-registered?
Predicate used in theorem hypotheses. -/
def validReturn (reg : PyType → Bool) : Option ReturnAnn → Bool
  | none => true
  | some (.single t) => reg t
  | some (.output items) => items.all (fun p => reg p.2)

/-- How much of the one-config budget a class state has used. -/
def cfgWeight : Option PyType → Nat
  | none => 0
  | some _ => 1

/-! Helper lemmas about the embedded operations. -/

theorem keysOf_append {α : Type} (d e : List (String × α)) :
    keysOf (d ++ e) = keysOf d ++ keysOf e :=
  List.map_append _ d e

theorem dictUpdate_notMem {α : Type} (d : List (String × α)) (k : String)
    (v : α) (h : k ∉ keysOf d) : dictUpdate d k v = d ++ [(k, v)] := by
  unfold dictUpdate
  rw [if_neg h]

theorem cfgWeight_le_one (c : Option PyType) : cfgWeight c ≤ 1 := by
  cases c <;> simp [cfgWeight]

theorem classifiesOk_elim {reg : PyType → Bool} {anns : List (String × PyType)}
    {a : String} (h : classifiesOk reg anns a = true) :
    ∃ t, lookupAnn anns a = some t ∧
      (t.isStepConfigSubclass = true ∨ reg t = true) := by
  unfold classifiesOk at h
  cases hl : lookupAnn anns a with
  | none => rw [hl] at h; exact absurd h (by simp)
  | some t =>
    rw [hl] at h
    exact ⟨t, rfl, by simpa [Bool.or_eq_true] using h⟩

theorem isCfgArg_of_lookup {anns : List (String × PyType)} {a : String}
    {t : PyType} (h : lookupAnn anns a = some t) :
    isCfgArg anns a = t.isStepConfigSubclass := by
  unfold isCfgArg
  rw [h]

theorem parseArgs_ok_of (reg : PyType → Bool) (anns : List (String × PyType)) :
    ∀ (args : List String) (st : ClassSpec),
      (∀ a ∈ args, classifiesOk reg anns a = true) →
      args.countP (isCfgArg anns) + cfgWeight st.config ≤ 1 →
      ∃ st', parseArgs reg anns args st = .ok st' ∧
        st'.outputSpec = st.outputSpec := by
  intro args
  induction args with
  | nil => exact fun st _ _ => ⟨st, rfl, rfl⟩
  | cons a rest ih =>
    intro st hcls hcount
    obtain ⟨t, hl, hor⟩ := classifiesOk_elim (hcls a (List.mem_cons_self a rest))
    have hrest : ∀ b ∈ rest, classifiesOk reg anns b = true :=
      fun b hb => hcls b (List.mem_cons_of_mem a hb)
    rw [List.countP_cons] at hcount
    by_cases hc : t.isStepConfigSubclass = true
    · have hcfgarg : isCfgArg anns a = true := by
        rw [isCfgArg_of_lookup hl, hc]
      rw [hcfgarg] at hcount
      simp only [if_true] at hcount
      have hnone : st.config = none := by
        cases hst : st.config with
        | none => rfl
        | some u => rw [hst] at hcount; simp only [cfgWeight] at hcount; omega
      rw [hnone] at hcount
      simp only [cfgWeight] at hcount
      obtain ⟨st', heq, hout⟩ := ih { st with config := some t } hrest
        (by simp only [cfgWeight]; omega)
      have hstep : parseArg reg st a (lookupAnn anns a) =
          .ok { st with config := some t } := by
        rw [hl]; simp [parseArg, hc, hnone]
      refine ⟨st', ?_, hout⟩
      simp only [parseArgs, hstep, heq]
    · have hc' : t.isStepConfigSubclass = false := by simpa using hc
      have hreg : reg t = true := by
        rcases hor with h | h
        · exact absurd h hc
        · exact h
      have hcfgarg : isCfgArg anns a = false := by
        rw [isCfgArg_of_lookup hl, hc']
      rw [hcfgarg] at hcount
      simp only [Bool.false_eq_true, if_false, Nat.add_zero] at hcount
      obtain ⟨st', heq, hout⟩ := ih
        { st with inputSpec := dictUpdate st.inputSpec a ArtifactType.baseArtifact }
        hrest (by simpa using hcount)
      have hstep : parseArg reg st a (lookupAnn anns a) =
          .ok { st with inputSpec := dictUpdate st.inputSpec a ArtifactType.baseArtifact } := by
        rw [hl]; simp [parseArg, hc', hreg]
      refine ⟨st', ?_, hout⟩
      simp only [parseArgs, hstep, heq]

theorem parseArgs_multiconfig (reg : PyType → Bool)
    (anns : List (String × PyType)) :
    ∀ (args : List String) (st : ClassSpec),
      (∀ a ∈ args, classifiesOk reg anns a = true) →
      2 ≤ args.countP (isCfgArg anns) + cfgWeight st.config →
      parseArgs reg anns args st = .error .multipleConfigs := by
  intro args
  induction args with
  | nil =>
    intro st _ hcount
    have := cfgWeight_le_one st.config
    simp only [List.countP_nil] at hcount
    omega
  | cons a rest ih =>
    intro st hcls hcount
    obtain ⟨t, hl, hor⟩ := classifiesOk_elim (hcls a (List.mem_cons_self a rest))
    have hrest : ∀ b ∈ rest, classifiesOk reg anns b = true :=
      fun b hb => hcls b (List.mem_cons_of_mem a hb)
    rw [List.countP_cons] at hcount
    by_cases hc : t.isStepConfigSubclass = true
    · have hcfgarg : isCfgArg anns a = true := by
        rw [isCfgArg_of_lookup hl, hc]
      rw [hcfgarg] at hcount
      simp only [if_true] at hcount
      cases hst : st.config with
      | some u =>
        have hstep : parseArg reg st a (lookupAnn anns a) =
            .error .multipleConfigs := by
          rw [hl]; simp [parseArg, hc, hst]
        simp only [parseArgs, hstep]
      | none =>
        rw [hst] at hcount
        simp only [cfgWeight] at hcount
        have hstep : parseArg reg st a (lookupAnn anns a) =
            .ok { st with config := some t } := by
          rw [hl]; simp [parseArg, hc, hst]
        have := ih { st with config := some t } hrest
          (by simp only [cfgWeight]; omega)
        simp only [parseArgs, hstep, this]
    · have hc' : t.isStepConfigSubclass = false := by simpa using hc
      have hreg : reg t = true := by
        rcases hor with h | h
        · exact absurd h hc
        · exact h
      have hcfgarg : isCfgArg anns a = false := by
        rw [isCfgArg_of_lookup hl, hc']
      rw [hcfgarg] at hcount
      simp only [Bool.false_eq_true, if_false, Nat.add_zero] at hcount
      have hstep : parseArg reg st a (lookupAnn anns a) =
          .ok { st with inputSpec := dictUpdate st.inputSpec a ArtifactType.baseArtifact } := by
        rw [hl]; simp [parseArg, hc', hreg]
      have := ih
        { st with inputSpec := dictUpdate st.inputSpec a ArtifactType.baseArtifact }
        hrest (by simpa using hcount)
      simp only [parseArgs, hstep, this]

theorem parseArgs_append (reg : PyType → Bool) (anns : List (String × PyType)) :
    ∀ (l₁ l₂ : List String) (st : ClassSpec),
      parseArgs reg anns (l₁ ++ l₂) st =
        match parseArgs reg anns l₁ st with
        | .error e => .error e
        | .ok st' => parseArgs reg anns l₂ st' := by
  intro l₁
  induction l₁ with
  | nil => intro l₂ st; rfl
  | cons a rest ih =>
    intro l₂ st
    show parseArgs reg anns (a :: (rest ++ l₂)) st = _
    cases hstep : parseArg reg st a (lookupAnn anns a) with
    | error e => simp only [parseArgs, hstep]
    | ok st' => simp only [parseArgs, hstep, ih]

theorem parseArgs_ok_exact (reg : PyType → Bool) (anns : List (String × PyType)) :
    ∀ (args : List String) (st : ClassSpec),
      (∀ a ∈ args, classifiesOk reg anns a = true) →
      args.countP (isCfgArg anns) + cfgWeight st.config ≤ 1 →
      args.Nodup →
      (∀ a ∈ args, a ∉ keysOf st.inputSpec) →
      ∃ cfg, parseArgs reg anns args st =
        .ok { inputSpec := st.inputSpec ++
                (args.filter (fun a => !isCfgArg anns a)).map
                  (fun a => (a, ArtifactType.baseArtifact)),
              outputSpec := st.outputSpec, config := cfg } := by
  intro args
  induction args with
  | nil =>
    intro st _ _ _ _
    exact ⟨st.config, by simp [parseArgs]⟩
  | cons a rest ih =>
    intro st hcls hcount hnodup hfresh
    obtain ⟨t, hl, hor⟩ := classifiesOk_elim (hcls a (List.mem_cons_self a rest))
    have hrest : ∀ b ∈ rest, classifiesOk reg anns b = true :=
      fun b hb => hcls b (List.mem_cons_of_mem a hb)
    obtain ⟨hanot, hnodup'⟩ := List.nodup_cons.mp hnodup
    rw [List.countP_cons] at hcount
    by_cases hc : t.isStepConfigSubclass = true
    · have hcfgarg : isCfgArg anns a = true := by
        rw [isCfgArg_of_lookup hl, hc]
      rw [hcfgarg] at hcount
      simp only [if_true] at hcount
      have hnone : st.config = none := by
        cases hst : st.config with
        | none => rfl
        | some u => rw [hst] at hcount; simp only [cfgWeight] at hcount; omega
      rw [hnone] at hcount
      simp only [cfgWeight] at hcount
      obtain ⟨cfg, heq⟩ := ih { st with config := some t } hrest
        (by simp only [cfgWeight]; omega) hnodup'
        (fun b hb => hfresh b (List.mem_cons_of_mem a hb))
      have hstep : parseArg reg st a (lookupAnn anns a) =
          .ok { st with config := some t } := by
        rw [hl]; simp [parseArg, hc, hnone]
      refine ⟨cfg, ?_⟩
      simp only [parseArgs, hstep, heq]
      simp [List.filter_cons, hcfgarg]
    · have hc' : t.isStepConfigSubclass = false := by simpa using hc
      have hreg : reg t = true := by
        rcases hor with h | h
        · exact absurd h hc
        · exact h
      have hcfgarg : isCfgArg anns a = false := by
        rw [isCfgArg_of_lookup hl, hc']
      rw [hcfgarg] at hcount
      simp only [Bool.false_eq_true, if_false, Nat.add_zero] at hcount
      have hupd : dictUpdate st.inputSpec a ArtifactType.baseArtifact =
          st.inputSpec ++ [(a, ArtifactType.baseArtifact)] :=
        dictUpdate_notMem _ _ _ (hfresh a (List.mem_cons_self a rest))
      have hfresh' : ∀ b ∈ rest,
          b ∉ keysOf (st.inputSpec ++ [(a, ArtifactType.baseArtifact)]) := by
        intro b hb
        rw [keysOf_append]
        intro hmem
        rcases List.mem_append.mp hmem with hmem | hmem
        · exact hfresh b (List.mem_cons_of_mem a hb) hmem
        · have : b = a := by simpa [keysOf] using hmem
          exact hanot (this ▸ hb)
      obtain ⟨cfg, heq⟩ := ih
        { st with inputSpec := st.inputSpec ++ [(a, ArtifactType.baseArtifact)] }
        hrest (by simpa using hcount) hnodup' hfresh'
      have hstep : parseArg reg st a (lookupAnn anns a) =
          .ok { st with inputSpec := st.inputSpec ++ [(a, ArtifactType.baseArtifact)] } := by
        rw [hl]; simp [parseArg, hc', hreg, hupd]
      refine ⟨cfg, ?_⟩
      simp only [parseArgs, hstep, heq]
      simp [List.filter_cons, hcfgarg, List.append_assoc]

theorem parseOutputItems_ok_exists (reg : PyType → Bool) :
    ∀ (items : List (String × PyType)) (st : ClassSpec),
      (∀ p ∈ items, reg p.2 = true) →
      ∃ st', parseOutputItems reg items st = .ok st' ∧
        st'.inputSpec = st.inputSpec ∧ st'.config = st.config := by
  intro items
  induction items with
  | nil => exact fun st _ => ⟨st, rfl, rfl, rfl⟩
  | cons p rest ih =>
    intro st hreg
    obtain ⟨n, t⟩ := p
    have ht : reg t = true := hreg (n, t) (List.mem_cons_self _ _)
    obtain ⟨st', heq, hin, hcfg⟩ := ih
      { st with outputSpec := dictUpdate st.outputSpec n ArtifactType.baseArtifact }
      (fun q hq => hreg q (List.mem_cons_of_mem _ hq))
    refine ⟨st', ?_, by simpa using hin, by simpa using hcfg⟩
    simp [parseOutputItems, ht, heq]

theorem parseOutputItems_ok_exact (reg : PyType → Bool) :
    ∀ (items : List (String × PyType)) (st : ClassSpec),
      (∀ p ∈ items, reg p.2 = true) →
      (∀ p ∈ items, p.1 ∉ keysOf st.outputSpec) →
      (items.map Prod.fst).Nodup →
      parseOutputItems reg items st =
        .ok { st with outputSpec :=
          (st.outputSpec ++ items.map (fun p => (p.1, ArtifactType.baseArtifact))) } := by
  intro items
  induction items with
  | nil => intro st _ _ _; simp [parseOutputItems]
  | cons p rest ih =>
    intro st hreg hfresh hnodup
    obtain ⟨n, t⟩ := p
    have ht : reg t = true := hreg (n, t) (List.mem_cons_self _ _)
    rw [List.map_cons, List.nodup_cons] at hnodup
    obtain ⟨hanot, hnodup'⟩ := hnodup
    have hupd : dictUpdate st.outputSpec n ArtifactType.baseArtifact =
        st.outputSpec ++ [(n, ArtifactType.baseArtifact)] :=
      dictUpdate_notMem _ _ _ (hfresh (n, t) (List.mem_cons_self _ _))
    have hfresh' : ∀ q ∈ rest,
        q.1 ∉ keysOf (st.outputSpec ++ [(n, ArtifactType.baseArtifact)]) := by
      intro q hq
      rw [keysOf_append]
      intro hmem
      rcases List.mem_append.mp hmem with hmem | hmem
      · exact hfresh q (List.mem_cons_of_mem _ hq) hmem
      · have h1 : q.1 = n := by simpa [keysOf] using hmem
        have hmem2 : q.1 ∈ rest.map Prod.fst := List.mem_map_of_mem Prod.fst hq
        rw [h1] at hmem2
        exact hanot hmem2
    have := ih { st with outputSpec := st.outputSpec ++ [(n, ArtifactType.baseArtifact)] }
      (fun q hq => hreg q (List.mem_cons_of_mem _ hq)) hfresh' hnodup'
    simp [parseOutputItems, ht, hupd, this, List.append_assoc]

theorem parseOutputItems_firstFail (reg : PyType → Bool) :
    ∀ (pre : List (String × PyType)) (n : String) (t : PyType)
      (post : List (String × PyType)) (st : ClassSpec),
      (∀ p ∈ pre, reg p.2 = true) → reg t = false →
      parseOutputItems reg (pre ++ (n, t) :: post) st =
        .error (.unregisteredOutput n t) := by
  intro pre
  induction pre with
  | nil =>
    intro n t post st _ ht
    simp [parseOutputItems, ht]
  | cons p rest ih =>
    intro n t post st hreg ht
    obtain ⟨m, u⟩ := p
    have hu : reg u = true := hreg (m, u) (List.mem_cons_self _ _)
    simp only [List.cons_append]
    simp [parseOutputItems, hu,
      ih n t post _ (fun q hq => hreg q (List.mem_cons_of_mem _ hq)) ht]

theorem parseReturn_ok_exists (reg : PyType → Bool) (st : ClassSpec)
    (ret : Option ReturnAnn) (h : validReturn reg ret = true) :
    ∃ st', parseReturn reg st ret = .ok st' ∧ st'.inputSpec = st.inputSpec := by
  cases ret with
  | none => exact ⟨st, rfl, rfl⟩
  | some r =>
    cases r with
    | single t =>
      have ht : reg t = true := by simpa [validReturn] using h
      refine ⟨{ st with outputSpec := (dictUpdate st.outputSpec SINGLE_RETURN_OUT_NAME ArtifactType.baseArtifact) }, ?_, rfl⟩
      simp [parseReturn, ht]
    | output items =>
      have hall : ∀ p ∈ items, reg p.2 = true := by
        simpa [validReturn, List.all_eq_true] using h
      obtain ⟨st', heq, hin, _⟩ := parseOutputItems_ok_exists reg items st hall
      exact ⟨st', by simpa [parseReturn] using heq, hin⟩

theorem firstNotIn_none (ks : List String) :
    ∀ l, (∀ a ∈ l, a ∈ ks) → firstNotIn ks l = none := by
  intro l
  induction l with
  | nil => intro _; rfl
  | cons a rest ih =>
    intro h
    have ha : a ∈ ks := h a (List.mem_cons_self _ _)
    simp [firstNotIn, ha, ih (fun b hb => h b (List.mem_cons_of_mem _ hb))]

theorem firstNotIn_split (ks : List String) :
    ∀ (pre : List String) (a : String) (post : List String),
      (∀ b ∈ pre, b ∈ ks) → a ∉ ks →
      firstNotIn ks (pre ++ a :: post) = some a := by
  intro pre
  induction pre with
  | nil => intro a post _ ha; simp [firstNotIn, ha]
  | cons b rest ih =>
    intro a post h ha
    have hb : b ∈ ks := h b (List.mem_cons_self _ _)
    simp [firstNotIn, hb, ih a post (fun c hc => h c (List.mem_cons_of_mem _ hc)) ha]

theorem anyKeyIn_eq_false (ks : List String) :
    ∀ ps, (∀ q ∈ ps, q.1 ∉ ks) → anyKeyIn ps ks = false := by
  intro ps
  induction ps with
  | nil => intro _; rfl
  | cons q rest ih =>
    intro h
    have hq : q.1 ∉ ks := h q (List.mem_cons_self _ _)
    simp [anyKeyIn, hq, ih (fun r hr => h r (List.mem_cons_of_mem _ hr))]

theorem parseArgs_append_ok (reg : PyType → Bool)
    (anns : List (String × PyType)) {l₁ : List String} {st st' : ClassSpec}
    (h : parseArgs reg anns l₁ st = .ok st') (l₂ : List String) :
    parseArgs reg anns (l₁ ++ l₂) st = parseArgs reg anns l₂ st' := by
  have happ := parseArgs_append reg anns l₁ l₂ st
  rw [h] at happ
  simpa using happ

/-- Claim C4: calling a step with a supplied artifact name absent from the
input spec, or without an artifact name the input spec declares, raises a
`ValueError` carrying the offending name.  The first offender of each
direction is the one reported, the two directions raise distinct errors, and
the unexpected-name check runs (and reports) before the missing-name check:
the first conjunct needs no assumption about missing names. -/
theorem c4_call_mismatch_errors (cls : ClassSpec) (inst : StepInstance)
    (componentClass : List (String × CallArg) → Component)
    (artifacts : List (String × String)) :
    (∀ (pre : List String) (a : String) (post : List String),
      keysOf artifacts = pre ++ a :: post →
      (∀ b ∈ pre, b ∈ keysOf cls.inputSpec) →
      a ∉ keysOf cls.inputSpec →
      baseStepCall cls inst componentClass artifacts =
        .error (.unknownArtifact a (keysOf cls.inputSpec))) ∧
    ((∀ b ∈ keysOf artifacts, b ∈ keysOf cls.inputSpec) →
     ∀ (pre : List String) (a : String) (post : List String),
      keysOf cls.inputSpec = pre ++ a :: post →
      (∀ b ∈ pre, b ∈ keysOf artifacts) →
      a ∉ keysOf artifacts →
      baseStepCall cls inst componentClass artifacts =
        .error (.missingArtifact a)) := by
  constructor
  · intro pre a post hsplit hpre ha
    have h1 : firstNotIn (keysOf cls.inputSpec) (keysOf artifacts) = some a := by
      rw [hsplit]; exact firstNotIn_split _ pre a post hpre ha
    simp only [baseStepCall, h1]
  · intro hall pre a post hsplit hpre ha
    have h1 : firstNotIn (keysOf cls.inputSpec) (keysOf artifacts) = none :=
      firstNotIn_none _ _ hall
    have h2 : firstNotIn (keysOf artifacts) (keysOf cls.inputSpec) = some a := by
      rw [hsplit]; exact firstNotIn_split _ pre a post hpre ha
    simp only [baseStepCall, h1, h2]

/-- Witness for C4: supplying the unknown artifact name `y` to a step whose
only declared input is `x` raises the unknown-artifact error naming `y` and
listing the declared inputs. -/
theorem c4_call_mismatch_errors_witness :
    baseStepCall ⟨[("x", ArtifactType.baseArtifact)], [], none⟩ ⟨none, [], none⟩
        (fun _ => ⟨fun _ => "h"⟩) [("y", "a1")] =
      .error (.unknownArtifact "y" ["x"]) :=
  (c4_call_mismatch_errors _ _ _ _).1 [] "y" [] rfl (by simp) (by decide)

/-- Claim C1 (amended): calling a step with artifact names exactly matching
the input spec keys succeeds — provided additionally that no supplied
artifact name collides with a key of the instance's serialized parameter
spec, since `component_class(**artifacts, **self.PARAM_SPEC)` raises
`TypeError` on a duplicate keyword — and the call stores the component built
from the merged keywords and returns the bare handle when the output spec has
exactly one entry, and the list of handles in output-spec order otherwise. -/
theorem c1_call_success (cls : ClassSpec) (inst : StepInstance)
    (componentClass : List (String × CallArg) → Component)
    (artifacts : List (String × String))
    (hsub1 : ∀ a ∈ keysOf artifacts, a ∈ keysOf cls.inputSpec)
    (hsub2 : ∀ a ∈ keysOf cls.inputSpec, a ∈ keysOf artifacts)
    (hdisj : ∀ q ∈ inst.paramSpec, q.1 ∉ keysOf artifacts) :
    ∃ comp res,
      comp = componentClass (mergedCallKwargs artifacts inst.paramSpec) ∧
      baseStepCall cls inst componentClass artifacts =
        .ok ({ inst with component := some comp }, res) ∧
      (∀ p, cls.outputSpec = [p] → res = CallResult.single (comp.outputs p.1)) ∧
      (cls.outputSpec.length ≠ 1 →
        res = CallResult.many (cls.outputSpec.map (fun p => comp.outputs p.1))) := by
  have h1 : firstNotIn (keysOf cls.inputSpec) (keysOf artifacts) = none :=
    firstNotIn_none _ _ hsub1
  have h2 : firstNotIn (keysOf artifacts) (keysOf cls.inputSpec) = none :=
    firstNotIn_none _ _ hsub2
  have h3 : anyKeyIn inst.paramSpec (keysOf artifacts) = false :=
    anyKeyIn_eq_false _ _ hdisj
  rcases houtput : cls.outputSpec with _ | ⟨p0, _ | ⟨p1, tail⟩⟩
  · refine ⟨componentClass (mergedCallKwargs artifacts inst.paramSpec),
      CallResult.many [], rfl, ?_, ?_, ?_⟩
    · simp [baseStepCall, h1, h2, h3, houtput]
    · intro p hp
      exact absurd hp (by simp)
    · intro _
      simp
  · refine ⟨componentClass (mergedCallKwargs artifacts inst.paramSpec),
      CallResult.single
        ((componentClass (mergedCallKwargs artifacts inst.paramSpec)).outputs p0.1),
      rfl, ?_, ?_, ?_⟩
    · simp [baseStepCall, h1, h2, h3, houtput]
    · intro p hp
      have hpp : p0 = p := by simpa using hp
      rw [hpp]
    · intro hlen
      exact absurd (by simp) hlen
  · refine ⟨componentClass (mergedCallKwargs artifacts inst.paramSpec),
      CallResult.many ((p0 :: p1 :: tail).map
        (fun p => (componentClass (mergedCallKwargs artifacts inst.paramSpec)).outputs p.1)),
      rfl, ?_, ?_, ?_⟩
    · simp [baseStepCall, h1, h2, h3, houtput]
    · intro p hp
      exact absurd hp (by simp)
    · intro _
      rfl

/-- Witness for C1 at a concrete step: one declared input `x`, one declared
output, a serialized parameter `lr` disjoint from the input names. -/
theorem c1_call_success_witness :
    ∃ comp res,
      comp = (fun _ => Component.mk (fun n => n))
        (mergedCallKwargs [("x", "a1")] [("lr", "0.1")]) ∧
      baseStepCall
          ⟨[("x", ArtifactType.baseArtifact)], [("output", ArtifactType.baseArtifact)],
            some ⟨"Conf", true⟩⟩
          ⟨none, [("lr", "0.1")], none⟩
          (fun _ => Component.mk (fun n => n)) [("x", "a1")] =
        .ok ({ materializers := none, paramSpec := [("lr", "0.1")],
               component := some comp }, res) ∧
      (∀ p, ([("output", ArtifactType.baseArtifact)] : List (String × ArtifactType)) = [p] →
        res = CallResult.single (comp.outputs p.1)) ∧
      (([("output", ArtifactType.baseArtifact)] : List (String × ArtifactType)).length ≠ 1 →
        res = CallResult.many
          (([("output", ArtifactType.baseArtifact)] : List (String × ArtifactType)).map
            (fun p => comp.outputs p.1))) :=
  c1_call_success
    ⟨[("x", ArtifactType.baseArtifact)], [("output", ArtifactType.baseArtifact)],
      some ⟨"Conf", true⟩⟩
    ⟨none, [("lr", "0.1")], none⟩
    (fun _ => Component.mk (fun n => n)) [("x", "a1")] (by decide) (by decide) (by decide)

/-- Counterexample to C1 as stated: a step whose input `x` shares its name
with a serialized configuration field `x` (the instance shown is exactly what
construction produces for such a config) fails its call with a `TypeError`
from the duplicated keyword in `component_class(**artifacts, **PARAM_SPEC)`,
even though the supplied artifact names match the input spec exactly. -/
theorem c1_counterexample :
    baseStepInit
        ⟨[("x", ArtifactType.baseArtifact)], [("output", ArtifactType.baseArtifact)],
          some ⟨"Conf", true⟩⟩ []
        [("conf", PyValue.configValue ⟨[("x", FieldValue.jsonOk "0")], false⟩)] =
      .ok ⟨none, [("x", "0")], none⟩ ∧
    baseStepCall
        ⟨[("x", ArtifactType.baseArtifact)], [("output", ArtifactType.baseArtifact)],
          some ⟨"Conf", true⟩⟩
        ⟨none, [("x", "0")], none⟩ (fun _ => Component.mk (fun n => n)) [("x", "a1")] =
      .error .typeError :=
  ⟨rfl, rfl⟩

/-- Claim C10: the class-level specs (`INPUT_SPEC`, `OUTPUT_SPEC`, `CONFIG`)
are fixed by `BaseStepMeta.__new__` and left unchanged by every instance
operation — construction (also on its error paths), invocation, and
materializer injection only read them.  In the embedding every write of the
source methods targets instance attributes, so each operation carries the
class component of the state through unchanged. -/
theorem c10_specs_readonly :
    (∀ (cls : ClassSpec) (args : List PyValue) (kwargs : List (String × PyValue))
      (s : StepState), stateInit cls args kwargs = .ok s → s.cls = cls) ∧
    (∀ (cls : ClassSpec) (args : List PyValue) (kwargs : List (String × PyValue))
      (e : StepError) (s : StepState),
      stateInit cls args kwargs = .error (e, s) → s.cls = cls) ∧
    (∀ (s : StepState) (componentClass : List (String × CallArg) → Component)
      (artifacts : List (String × String)) (s' : StepState) (r : CallResult),
      stateCall s componentClass artifacts = .ok (s', r) → s'.cls = s.cls) ∧
    (∀ (s : StepState) (mats : List (String × String)),
      (stateWithMaterializers s mats).cls = s.cls) := by
  refine ⟨?_, ?_, ?_, fun s mats => rfl⟩
  · intro cls args kwargs s h
    unfold stateInit at h
    cases hb : baseStepInit cls args kwargs with
    | error p => rw [hb] at h; exact absurd h (by simp)
    | ok i =>
      rw [hb] at h
      have : StepState.mk cls i = s := by simpa using h
      rw [← this]
  · intro cls args kwargs e s h
    unfold stateInit at h
    cases hb : baseStepInit cls args kwargs with
    | ok i => rw [hb] at h; exact absurd h (by simp)
    | error p =>
      obtain ⟨e0, i0⟩ := p
      rw [hb] at h
      have h2 : e0 = e ∧ StepState.mk cls i0 = s := by
        simpa using h
      rw [← h2.2]
  · intro s componentClass artifacts s' r h
    unfold stateCall at h
    cases hb : baseStepCall s.cls s.inst componentClass artifacts with
    | error e => rw [hb] at h; exact absurd h (by simp)
    | ok p =>
      obtain ⟨i0, r0⟩ := p
      rw [hb] at h
      have h2 : StepState.mk s.cls i0 = s' ∧ r0 = r := by
        simpa using h
      rw [← h2.1]

/-- Witness for C10: a concrete call on a one-input, zero-output step leaves
the class spec of the state unchanged. -/
theorem c10_specs_readonly_witness :
    (⟨⟨[("x", ArtifactType.baseArtifact)], [], none⟩,
      ⟨none, [], some (Component.mk (fun n => n))⟩⟩ : StepState).cls =
      (⟨⟨[("x", ArtifactType.baseArtifact)], [], none⟩,
        ⟨none, [], none⟩⟩ : StepState).cls :=
  c10_specs_readonly.2.2.1
    ⟨⟨[("x", ArtifactType.baseArtifact)], [], none⟩, ⟨none, [], none⟩⟩
    (fun _ => Component.mk (fun n => n)) [("x", "a1")]
    ⟨⟨[("x", ArtifactType.baseArtifact)], [], none⟩,
      ⟨none, [], some (Component.mk (fun n => n))⟩⟩
    (CallResult.many []) rfl

/-- Claim C2 (amended): for a process signature whose parameters (past the
receiver) all classify — each annotated with a `BaseStepConfig` subclass or a
materializer-registered type — class construction succeeds when at most one
parameter is configuration-typed and the return annotation is absent or
valid, and fails with the multiple-configs `StepInterfaceError` (the error
naming the one-config rule) when two or more parameters are
configuration-typed. -/
theorem c2_config_arity (reg : PyType → Bool) (sig : ProcessSignature)
    (hcls : ∀ a ∈ stripSelf sig.args, classifiesOk reg sig.annotations a = true) :
    ((stripSelf sig.args).countP (isCfgArg sig.annotations) ≤ 1 →
      validReturn reg sig.returnAnn = true →
      ∃ spec, baseStepMetaNew reg sig = .ok spec) ∧
    (2 ≤ (stripSelf sig.args).countP (isCfgArg sig.annotations) →
      baseStepMetaNew reg sig = .error .multipleConfigs) := by
  constructor
  · intro hcount hret
    obtain ⟨st, hargs, _⟩ := parseArgs_ok_of reg sig.annotations (stripSelf sig.args)
      emptyClassSpec hcls (by simpa [emptyClassSpec, cfgWeight] using hcount)
    obtain ⟨st', hret', _⟩ := parseReturn_ok_exists reg st sig.returnAnn hret
    exact ⟨st', by simp only [baseStepMetaNew, hargs, hret']⟩
  · intro hcount
    have hm := parseArgs_multiconfig reg sig.annotations (stripSelf sig.args)
      emptyClassSpec hcls (by simpa [emptyClassSpec, cfgWeight] using hcount)
    simp only [baseStepMetaNew, hm]

/-- Witness for C2: one configuration parameter plus one registered artifact
parameter, no return annotation — construction succeeds. -/
theorem c2_config_arity_witness :
    ∃ spec, baseStepMetaNew (fun t => t.name == "int")
      ⟨["self", "conf", "x"],
        [("conf", ⟨"MyConfig", true⟩), ("x", ⟨"int", false⟩)], none⟩ = .ok spec :=
  (c2_config_arity (fun t => t.name == "int")
    ⟨["self", "conf", "x"],
      [("conf", ⟨"MyConfig", true⟩), ("x", ⟨"int", false⟩)], none⟩
    (by decide)).1 (by decide) (by decide)

/-- Counterexample to C2 as stated: a signature with zero configuration
parameters and no other parameters at all — so the claim's hypotheses hold —
still fails class construction, because the return annotation names a type
without a registered materializer. -/
theorem c2_counterexample :
    baseStepMetaNew (fun t => t.name == "int")
      ⟨["self"], [], some (.single ⟨"FancyModel", false⟩)⟩ =
      .error (.unregisteredReturn ⟨"FancyModel", false⟩) := by
  rfl

/-- Claim C3 (amended): for a process signature whose parameters all
classify, with at most one configuration-typed parameter and an absent-or-
valid return annotation, class construction succeeds and the inferred input
spec is exactly the non-configuration parameter names in declaration order,
each mapped to the artifact base type; in particular its key set equals the
set of non-configuration parameter names. -/
theorem c3_input_spec (reg : PyType → Bool) (sig : ProcessSignature)
    (hcls : ∀ a ∈ stripSelf sig.args, classifiesOk reg sig.annotations a = true)
    (hcount : (stripSelf sig.args).countP (isCfgArg sig.annotations) ≤ 1)
    (hnodup : (stripSelf sig.args).Nodup)
    (hret : validReturn reg sig.returnAnn = true) :
    ∃ spec, baseStepMetaNew reg sig = .ok spec ∧
      spec.inputSpec =
        ((stripSelf sig.args).filter (fun a => !isCfgArg sig.annotations a)).map
          (fun a => (a, ArtifactType.baseArtifact)) := by
  obtain ⟨cfg, hargs⟩ := parseArgs_ok_exact reg sig.annotations (stripSelf sig.args)
    emptyClassSpec hcls (by simpa [emptyClassSpec, cfgWeight] using hcount) hnodup
    (by simp [emptyClassSpec, keysOf])
  obtain ⟨st', hret', hin⟩ := parseReturn_ok_exists reg
    { inputSpec :=
        (emptyClassSpec.inputSpec ++
          ((stripSelf sig.args).filter (fun a => !isCfgArg sig.annotations a)).map
            (fun a => (a, ArtifactType.baseArtifact))),
      outputSpec := emptyClassSpec.outputSpec, config := cfg }
    sig.returnAnn hret
  refine ⟨st', by simp only [baseStepMetaNew, hargs, hret'], ?_⟩
  rw [hin]
  simp [emptyClassSpec]

/-- Witness for C3: a config parameter and two registered parameters give the
input spec with exactly the two non-config names, in order. -/
theorem c3_input_spec_witness :
    ∃ spec, baseStepMetaNew (fun t => t.name == "int")
        ⟨["self", "conf", "x", "y"],
          [("conf", ⟨"MyConfig", true⟩), ("x", ⟨"int", false⟩), ("y", ⟨"int", false⟩)],
          none⟩ = .ok spec ∧
      spec.inputSpec = [("x", ArtifactType.baseArtifact), ("y", ArtifactType.baseArtifact)] :=
  c3_input_spec (fun t => t.name == "int")
    ⟨["self", "conf", "x", "y"],
      [("conf", ⟨"MyConfig", true⟩), ("x", ⟨"int", false⟩), ("y", ⟨"int", false⟩)],
      none⟩ (by decide) (by decide) (by decide) (by decide)

/-- Counterexample to C3 as stated: both parameters are annotated with
configuration types — every parameter is "annotated either with the
configuration type or with a materializer-registered type" — yet class
construction raises the multiple-configs error and produces no input spec at
all. -/
theorem c3_counterexample :
    baseStepMetaNew (fun t => t.name == "int")
      ⟨["self", "c1", "c2"],
        [("c1", ⟨"ConfA", true⟩), ("c2", ⟨"ConfB", true⟩)], none⟩ =
      .error .multipleConfigs := by
  rfl

/-- Claim C5 (amended): for a process signature whose parameters all classify
with at most one configuration-typed parameter, a return annotation that is a
single materializer-registered type makes class construction succeed with an
output spec of exactly one entry, stored under the fixed single-output
name. -/
theorem c5_single_return (reg : PyType → Bool) (sig : ProcessSignature)
    (t : PyType)
    (hcls : ∀ a ∈ stripSelf sig.args, classifiesOk reg sig.annotations a = true)
    (hcount : (stripSelf sig.args).countP (isCfgArg sig.annotations) ≤ 1)
    (hret : sig.returnAnn = some (.single t)) (hreg : reg t = true) :
    ∃ spec, baseStepMetaNew reg sig = .ok spec ∧
      spec.outputSpec = [(SINGLE_RETURN_OUT_NAME, ArtifactType.baseArtifact)] := by
  obtain ⟨st, hargs, hout⟩ := parseArgs_ok_of reg sig.annotations (stripSelf sig.args)
    emptyClassSpec hcls (by simpa [emptyClassSpec, cfgWeight] using hcount)
  have hout2 : st.outputSpec = [] := by simpa [emptyClassSpec] using hout
  refine ⟨{ st with outputSpec := [(SINGLE_RETURN_OUT_NAME, ArtifactType.baseArtifact)] },
    ?_, rfl⟩
  simp only [baseStepMetaNew, hargs, hret]
  simp [parseReturn, hreg, hout2, dictUpdate, keysOf]

/-- Witness for C5: a single registered parameter and a single registered
return type produce the one-entry output spec under the fixed name. -/
theorem c5_single_return_witness :
    ∃ spec, baseStepMetaNew (fun t => t.name == "int")
        ⟨["self", "x"], [("x", ⟨"int", false⟩)], some (.single ⟨"int", false⟩)⟩ =
        .ok spec ∧
      spec.outputSpec = [(SINGLE_RETURN_OUT_NAME, ArtifactType.baseArtifact)] :=
  c5_single_return (fun t => t.name == "int")
    ⟨["self", "x"], [("x", ⟨"int", false⟩)], some (.single ⟨"int", false⟩)⟩
    ⟨"int", false⟩ (by decide) (by decide) rfl (by decide)

/-- Counterexample to C5 as stated: the return annotation is a single
registered type, yet class construction fails — the one parameter is
annotated with an unclassifiable type — so no one-entry output spec is
produced. -/
theorem c5_counterexample :
    baseStepMetaNew (fun t => t.name == "int")
      ⟨["self", "x"], [("x", ⟨"FancyModel", false⟩)], some (.single ⟨"int", false⟩)⟩ =
      .error (.unclassifiableParam "x" ⟨"FancyModel", false⟩) := by
  rfl

/-- Claim C6 (amended): for a process signature whose parameters all classify
with at most one configuration-typed parameter and whose return annotation is
a multi-output `Output` declaration: when every named type is registered (the
names, Python keywords, being distinct), construction succeeds with an output
spec of exactly the declared entries in declaration order; when some named
type is unregistered, construction fails with the error carrying the first
offending name and type. -/
theorem c6_multi_return (reg : PyType → Bool) (sig : ProcessSignature)
    (items : List (String × PyType))
    (hcls : ∀ a ∈ stripSelf sig.args, classifiesOk reg sig.annotations a = true)
    (hcount : (stripSelf sig.args).countP (isCfgArg sig.annotations) ≤ 1)
    (hret : sig.returnAnn = some (.output items)) :
    ((∀ p ∈ items, reg p.2 = true) → (items.map Prod.fst).Nodup →
      ∃ spec, baseStepMetaNew reg sig = .ok spec ∧
        spec.outputSpec = items.map (fun p => (p.1, ArtifactType.baseArtifact))) ∧
    (∀ (pre : List (String × PyType)) (n : String) (t : PyType)
      (post : List (String × PyType)),
      items = pre ++ (n, t) :: post → (∀ p ∈ pre, reg p.2 = true) → reg t = false →
      baseStepMetaNew reg sig = .error (.unregisteredOutput n t)) := by
  obtain ⟨st, hargs, hout⟩ := parseArgs_ok_of reg sig.annotations (stripSelf sig.args)
    emptyClassSpec hcls (by simpa [emptyClassSpec, cfgWeight] using hcount)
  have hout2 : st.outputSpec = [] := by simpa [emptyClassSpec] using hout
  constructor
  · intro hregall hnodup
    have hexact := parseOutputItems_ok_exact reg items st hregall
      (by simp [hout2, keysOf]) hnodup
    refine ⟨{ st with outputSpec := (items.map (fun p => (p.1, ArtifactType.baseArtifact))) },
      ?_, rfl⟩
    simp only [baseStepMetaNew, hargs, hret]
    simp [parseReturn, hexact, hout2]
  · intro pre n t post hsplit hpre hbad
    have hfail := parseOutputItems_firstFail reg pre n t post st hpre hbad
    simp only [baseStepMetaNew, hargs, hret]
    simp only [parseReturn]
    rw [hsplit, hfail]

/-- Witness for C6: two registered named outputs produce a two-entry output
spec in declaration order. -/
theorem c6_multi_return_witness :
    ∃ spec, baseStepMetaNew (fun t => t.name == "int")
        ⟨["self", "x"], [("x", ⟨"int", false⟩)],
          some (.output [("a", ⟨"int", false⟩), ("b", ⟨"int", false⟩)])⟩ = .ok spec ∧
      spec.outputSpec =
        [("a", ArtifactType.baseArtifact), ("b", ArtifactType.baseArtifact)] :=
  (c6_multi_return (fun t => t.name == "int")
    ⟨["self", "x"], [("x", ⟨"int", false⟩)],
      some (.output [("a", ⟨"int", false⟩), ("b", ⟨"int", false⟩)])⟩
    [("a", ⟨"int", false⟩), ("b", ⟨"int", false⟩)]
    (by decide) (by decide) rfl).1 (by decide) (by decide)

/-- Counterexample to C6 as stated: the return annotation declares one named,
registered output, yet class construction fails on the unclassifiable
parameter before the output spec exists, with an error that names the
parameter, not any output. -/
theorem c6_counterexample :
    baseStepMetaNew (fun t => t.name == "int")
      ⟨["self", "x"], [("x", ⟨"FancyThing", false⟩)],
        some (.output [("a", ⟨"int", false⟩)])⟩ =
      .error (.unclassifiableParam "x" ⟨"FancyThing", false⟩) := by
  rfl

/-- Claim C7 (amended): when the classification loop reaches a parameter that
does not classify (all earlier parameters classifying, within the one-config
budget): if the parameter is annotated, construction fails with the
classification `StepInterfaceError` naming the parameter and its type; if the
parameter has no annotation at all, construction fails with the bare
`TypeError` from `issubclass(None, BaseStepConfig)`, which names neither. -/
theorem c7_unclassifiable (reg : PyType → Bool) (sig : ProcessSignature)
    (pre : List String) (a : String) (post : List String)
    (hsplit : stripSelf sig.args = pre ++ a :: post)
    (hpre : ∀ b ∈ pre, classifiesOk reg sig.annotations b = true)
    (hcount : pre.countP (isCfgArg sig.annotations) ≤ 1) :
    (lookupAnn sig.annotations a = none →
      baseStepMetaNew reg sig = .error .typeError) ∧
    (∀ t, lookupAnn sig.annotations a = some t →
      t.isStepConfigSubclass = false → reg t = false →
      baseStepMetaNew reg sig = .error (.unclassifiableParam a t)) := by
  obtain ⟨st, hargs, _⟩ := parseArgs_ok_of reg sig.annotations pre emptyClassSpec hpre
    (by simpa [emptyClassSpec, cfgWeight] using hcount)
  have happ := parseArgs_append_ok reg sig.annotations hargs (a :: post)
  constructor
  · intro hnone
    have hstep : parseArg reg st a (lookupAnn sig.annotations a) =
        .error .typeError := by
      rw [hnone]; rfl
    simp only [baseStepMetaNew, hsplit, happ, parseArgs, hstep]
  · intro t hl hc hreg
    have hstep : parseArg reg st a (lookupAnn sig.annotations a) =
        .error (.unclassifiableParam a t) := by
      rw [hl]; simp [parseArg, hc, hreg]
    simp only [baseStepMetaNew, hsplit, happ, parseArgs, hstep]

/-- Witness for C7: an annotated parameter whose type is neither a config
subclass nor registered fails with the classification error naming both the
parameter and the type. -/
theorem c7_unclassifiable_witness :
    baseStepMetaNew (fun t => t.name == "int")
      ⟨["self", "x"], [("x", ⟨"Widget", false⟩)], none⟩ =
      .error (.unclassifiableParam "x" ⟨"Widget", false⟩) :=
  (c7_unclassifiable (fun t => t.name == "int")
    ⟨["self", "x"], [("x", ⟨"Widget", false⟩)], none⟩ [] "x" [] rfl
    (by simp) (by decide)).2 ⟨"Widget", false⟩ rfl rfl (by decide)

/-- Counterexample to C7 as stated: a parameter with no annotation at all
makes class construction fail with the bare `TypeError` value — a constructor
carrying no data — not with a classification error naming the offending
parameter and its type as the claim requires. -/
theorem c7_counterexample :
    baseStepMetaNew (fun t => t.name == "int") ⟨["self", "x"], [], none⟩ =
      .error .typeError := by
  rfl

/-- Claim C8 (code bug in the source): a step class that declares a
configuration type can nonetheless be constructed with no keyword arguments
at all, completing silently with an empty parameter spec.  The defensive
`assert self.PARAM_SPEC` sits inside the `for v in kwargs.values()` loop, so
with empty kwargs the loop body — including the assert whose message promises
failure when no config is found — never runs. -/
theorem c8_empty_kwargs_eval :
    baseStepInit ⟨[("x", ArtifactType.baseArtifact)], [], some ⟨"MyConfig", true⟩⟩
      [] [] = .ok ⟨none, [], none⟩ := by
  rfl

/-- Claim C9 (code bug in the source): a configuration value with a field
`json.dumps` cannot encode fails construction with an uncaught `TypeError`,
not with the documented serialization `StepInterfaceError` — the source
catches only `RuntimeError` around the serialization.  The claim's other
half does hold: at the raise, `self.PARAM_SPEC` carries no entry derived from
the failing configuration value (it is still the empty dict). -/
theorem c9_unserializable_eval :
    baseStepInit ⟨[], [], some ⟨"MyConfig", true⟩⟩ []
      [("config", PyValue.configValue ⟨[("arr", FieldValue.jsonBad "ndarray")], false⟩)] =
      .error (.typeError, ⟨none, [], none⟩) := by
  rfl
